import Mathlib

/-!
Verification of `database/scripts/init_collections_and_seed.mongosh.js`:
a MongoDB schema-provisioning and seeding script for the express delivery
management system.  The script is shallowly embedded: BSON values become an
inductive `Val` (numbers as `Rat`, dates as millisecond `Int` timestamps,
ObjectIds as `Nat`), documents are ordered field lists, collections are
document lists, and the database is a `Store` record.  The MongoDB
primitives the script relies on (`findOneAndUpdate` with `$setOnInsert` and
`upsert`, `updateOne` with `$setOnInsert` and `upsert`, `findOne`,
`createIndex`, and unique-index enforcement on insert) are modelled
explicitly, and the script body is translated statement by statement.
-/

namespace SeedInit

/-- Primitive (non-nested) BSON values appearing in the script. -/
inductive Prim where
  | pNull : Prim
  | pBool : Bool → Prim
  | pNum : Rat → Prim
  | pStr : String → Prim
  | pId : Nat → Prim
  | pDate : Int → Prim
  deriving DecidableEq, Repr

/-- A BSON value: a primitive or a one-level nested object (the script only
nests one level deep: addresses, package details, locations). -/
inductive Val where
  | prim : Prim → Val
  | obj : List (String × Prim) → Val
  deriving DecidableEq, Repr

/-- A document is an ordered list of named fields. -/
abbrev Doc := List (String × Val)

def strV (s : String) : Val := Val.prim (Prim.pStr s)

def lookupField (d : Doc) (k : String) : Option Val :=
  (d.find? (fun p => p.1 = k)).map Prod.snd

/-- An equality filter `{ field: value }` matches a document when the field
is present with exactly that value. -/
def matchesFilter (f : String × Val) (d : Doc) : Bool :=
  decide (lookupField d f.1 = some f.2)

/-- `collection.findOne(filter)`: first matching document, if any. -/
def findOne (coll : List Doc) (f : String × Val) : Option Doc :=
  coll.find? (matchesFilter f)

/-- JavaScript truthiness of an optional value (`undefined` is `none`). -/
def truthy : Option Val → Bool
  | none => false
  | some (Val.prim Prim.pNull) => false
  | some (Val.prim (Prim.pBool b)) => b
  | some (Val.prim (Prim.pNum q)) => decide (q ≠ 0)
  | some (Val.prim (Prim.pStr s)) => decide (s ≠ "")
  | some (Val.prim (Prim.pId _)) => true
  | some (Val.prim (Prim.pDate _)) => true
  | some (Val.obj _) => true

/-- `doc._id`, with a missing field collapsing to null (a stored MongoDB
document always carries `_id`, so the default is unreachable for documents
the server inserted). -/
def idOfDoc (d : Doc) : Val := (lookupField d "_id").getD (Val.prim Prim.pNull)

/-- Result of `findOneAndUpdate(filter, { $setOnInsert }, { upsert: true,
returnDocument: "after" })`. -/
structure FAUResult where
  coll : List Doc
  ret : Option Doc
  inserted : Bool
  deriving DecidableEq, Repr

/-- `findOneAndUpdate` with only `$setOnInsert`, `upsert: true` and
`returnDocument: "after"`: a match is returned unmodified; otherwise a new
document is inserted consisting of a fresh `_id` followed by the
`$setOnInsert` payload (the script always repeats the filter field, with an
identical value, inside the payload, so the upserted document is exactly
this). -/
def findOneAndUpdateUpsert (coll : List Doc) (f : String × Val)
    (setOnInsert : Doc) (newId : Nat) : FAUResult :=
  match findOne coll f with
  | some d => ⟨coll, some d, false⟩
  | none =>
    let newDoc : Doc := ("_id", Val.prim (Prim.pId newId)) :: setOnInsert
    ⟨coll ++ [newDoc], some newDoc, true⟩

/-- Result of `updateOne(filter, { $setOnInsert }, { upsert: true })`. -/
structure UOResult where
  coll : List Doc
  inserted : Bool
  deriving DecidableEq, Repr

/-- `updateOne` with only `$setOnInsert` and `upsert: true`: no-op on a
match, insert of `_id` plus the payload otherwise. -/
def updateOneUpsert (coll : List Doc) (f : String × Val)
    (setOnInsert : Doc) (newId : Nat) : UOResult :=
  match findOne coll f with
  | some _ => ⟨coll, false⟩
  | none => ⟨coll ++ [("_id", Val.prim (Prim.pId newId)) :: setOnInsert], true⟩

/-- `collection.findOne(filter)._id` as the script's fallback id lookup:
throws (error) when `findOne` returns null. -/
def fallbackIdLookup (coll : List Doc) (f : String × Val) : Except String Val :=
  match findOne coll f with
  | none => Except.error "TypeError: cannot read _id of null"
  | some d => Except.ok (idOfDoc d)

/-- Lines 102-103 of the script: `upsertResult?._id || coll.findOne(key)._id`.
The optional-chain value is taken when truthy; otherwise the id is
re-resolved by a secondary `findOne` on the same key. -/
def resolveId (ret : Option Doc) (coll : List Doc) (f : String × Val) :
    Except String Val :=
  let primary : Option Val := ret.bind (fun d => lookupField d "_id")
  if truthy primary then Except.ok (primary.getD (Val.prim Prim.pNull))
  else fallbackIdLookup coll f

/-- Line 147 of the script: `deliveryUpsert || deliveries.findOne(marker)`
(a document is always truthy in JavaScript). -/
def jsOrDoc (a : Option Doc) (b : Option Doc) : Option Doc :=
  match a with
  | some d => some d
  | none => b

/-- A named index specification: name, keys with direction (1 ascending,
-1 descending), uniqueness. -/
structure IndexSpec where
  name : String
  keys : List (String × Int)
  unique : Bool
  deriving DecidableEq, Repr

/-- `collection.createIndex(keys, options)`: identical existing spec is a
no-op; an existing index with the same name but a different spec, or the
same keys under a different name, is a conflict error; otherwise the index
is appended. -/
def createIndex (idxs : List IndexSpec) (spec : IndexSpec) :
    Except String (List IndexSpec) :=
  match idxs.find? (fun i => i.name = spec.name) with
  | some ex => if ex = spec then Except.ok idxs else Except.error "IndexKeySpecsConflict"
  | none =>
    match idxs.find? (fun i => i.keys = spec.keys) with
    | some _ => Except.error "IndexOptionsConflict"
    | none => Except.ok (idxs ++ [spec])

/-- Sequential `createIndex` calls on one collection. -/
def createIndexes (idxs : List IndexSpec) : List IndexSpec → Except String (List IndexSpec)
  | [] => Except.ok idxs
  | spec :: rest =>
    match createIndex idxs spec with
    | Except.error e => Except.error e
    | Except.ok idxs' => createIndexes idxs' rest

/-- The database state: existence flag, documents and indexes of each of the
four collections, plus the ObjectId allocation counter. -/
structure Store where
  usersExists : Bool
  deliveriesExists : Bool
  trackingExists : Bool
  notificationsExists : Bool
  users : List Doc
  deliveries : List Doc
  tracking_events : List Doc
  notifications : List Doc
  usersIndexes : List IndexSpec
  deliveriesIndexes : List IndexSpec
  trackingIndexes : List IndexSpec
  notificationsIndexes : List IndexSpec
  nextId : Nat
  deriving DecidableEq, Repr

def emptyStore : Store :=
  { usersExists := false, deliveriesExists := false, trackingExists := false
    notificationsExists := false, users := [], deliveries := []
    tracking_events := [], notifications := [], usersIndexes := []
    deliveriesIndexes := [], trackingIndexes := [], notificationsIndexes := []
    nextId := 0 }

/-! ### Fixture constants (lines 44-60 and 64-199 of the script) -/

def usersEmailUniqueIdx : IndexSpec := ⟨"users_email_unique", [("email", 1)], true⟩

def usersSpecs : List IndexSpec := [usersEmailUniqueIdx]

def deliveriesSpecs : List IndexSpec :=
  [⟨"deliveries_customerId", [("customerId", 1)], false⟩,
   ⟨"deliveries_courierId", [("courierId", 1)], false⟩,
   ⟨"deliveries_status", [("status", 1)], false⟩,
   ⟨"deliveries_createdAt_desc", [("createdAt", -1)], false⟩]

def trackingSpecs : List IndexSpec :=
  [⟨"tracking_deliveryId_createdAt_desc", [("deliveryId", 1), ("createdAt", -1)], false⟩]

def notificationsSpecs : List IndexSpec :=
  [⟨"notifications_userId_read", [("userId", 1), ("read", 1)], false⟩]

def customerEmail : String := "customer@example.com"

def courierEmail : String := "courier@example.com"

def custFilter : String × Val := ("email", strV customerEmail)

def courFilter : String × Val := ("email", strV courierEmail)

def delFilter : String × Val := ("seedMarker", strV "seed_delivery_1")

def tr1Filter : String × Val := ("seedMarker", strV "seed_tracking_1")

def tr2Filter : String × Val := ("seedMarker", strV "seed_tracking_2")

def notifFilter : String × Val := ("seedMarker", strV "seed_notification_1")

/-- `$setOnInsert` payload of the customer upsert (lines 74-82). -/
def customerDefaults (now : Int) : Doc :=
  [("email", strV customerEmail),
   ("password_hash", strV "$2b$10$seed.placeholder.hash.for.customer"),
   ("role", strV "customer"),
   ("name", strV "Seed Customer"),
   ("phone", strV "+15550000001"),
   ("createdAt", Val.prim (Prim.pDate now))]

/-- `$setOnInsert` payload of the courier upsert (lines 90-97). -/
def courierDefaults (now : Int) : Doc :=
  [("email", strV courierEmail),
   ("password_hash", strV "$2b$10$seed.placeholder.hash.for.courier"),
   ("role", strV "courier"),
   ("name", strV "Seed Courier"),
   ("phone", strV "+15550000002"),
   ("createdAt", Val.prim (Prim.pDate now))]

def pickupAddressVal : Val :=
  Val.obj [("line1", Prim.pStr "123 Pickup St"), ("city", Prim.pStr "San Francisco"),
           ("state", Prim.pStr "CA"), ("postalCode", Prim.pStr "94103"),
           ("country", Prim.pStr "US")]

def dropoffAddressVal : Val :=
  Val.obj [("line1", Prim.pStr "987 Dropoff Ave"), ("city", Prim.pStr "San Francisco"),
           ("state", Prim.pStr "CA"), ("postalCode", Prim.pStr "94107"),
           ("country", Prim.pStr "US")]

def packageDetailsVal : Val :=
  Val.obj [("description", Prim.pStr "Small box"), ("weightKg", Prim.pNum 1.2),
           ("fragile", Prim.pBool false)]

/-- `$setOnInsert` payload of the delivery upsert (lines 115-142). -/
def deliveryDefaults (customerId : Val) (now : Int) : Doc :=
  [("seedMarker", strV "seed_delivery_1"),
   ("customerId", customerId),
   ("courierId", Val.prim Prim.pNull),
   ("pickupAddress", pickupAddressVal),
   ("dropoffAddress", dropoffAddressVal),
   ("packageDetails", packageDetailsVal),
   ("price", Val.prim (Prim.pNum 19.99)),
   ("status", strV "requested"),
   ("createdAt", Val.prim (Prim.pDate now)),
   ("updatedAt", Val.prim (Prim.pDate now))]

/-- The `event1` object (lines 153-160). -/
def event1 (deliveryId : Val) (now : Int) : Doc :=
  [("deliveryId", deliveryId),
   ("location", Val.obj [("lat", Prim.pNum 37.7749), ("lng", Prim.pNum (-122.4194))]),
   ("heading", Val.prim (Prim.pNum 90)),
   ("speed", Val.prim (Prim.pNum 0)),
   ("createdAt", Val.prim (Prim.pDate (now - 2 * 60 * 1000))),
   ("seedMarker", strV "seed_tracking_1")]

/-- The `event2` object (lines 162-169). -/
def event2 (deliveryId : Val) (now : Int) : Doc :=
  [("deliveryId", deliveryId),
   ("location", Val.obj [("lat", Prim.pNum 37.7765), ("lng", Prim.pNum (-122.4172))]),
   ("heading", Val.prim (Prim.pNum 95)),
   ("speed", Val.prim (Prim.pNum 4.2)),
   ("createdAt", Val.prim (Prim.pDate (now - 1 * 60 * 1000))),
   ("seedMarker", strV "seed_tracking_2")]

/-- `$setOnInsert` payload of the notification upsert (lines 188-196). -/
def notificationDefaults (userId : Val) (now : Int) : Doc :=
  [("seedMarker", strV "seed_notification_1"),
   ("userId", userId),
   ("type", strV "delivery_requested"),
   ("title", strV "Delivery requested"),
   ("message", strV "Your delivery request has been created."),
   ("read", Val.prim (Prim.pBool false)),
   ("createdAt", Val.prim (Prim.pDate now))]

/-! ### The script body -/

/-- After `ensureCollection` the collection always exists. -/
def ensureCollectionFlag (_present : Bool) : Bool := true

/-- The progress line `ensureCollection` prints (lines 29 and 31). -/
def ensureCollectionLog (present : Bool) (name : String) : String :=
  if present then "- Collection exists: " ++ name
  else "✓ Created collection: " ++ name

/-- Rendering of an id value inside a progress line. -/
def showVal : Val → String
  | Val.prim (Prim.pId n) => "ObjectId(" ++ toString n ++ ")"
  | Val.prim Prim.pNull => "null"
  | _ => "?"

/-- Lines 25-62: ensure the four collections and provision all indexes. -/
def provision (s : Store) : Except String (Store × List String) :=
  let lu := ensureCollectionLog s.usersExists "users"
  let ld := ensureCollectionLog s.deliveriesExists "deliveries"
  let lt := ensureCollectionLog s.trackingExists "tracking_events"
  let ln := ensureCollectionLog s.notificationsExists "notifications"
  match createIndexes s.usersIndexes usersSpecs with
  | Except.error e => Except.error e
  | Except.ok uIdx =>
    match createIndexes s.deliveriesIndexes deliveriesSpecs with
    | Except.error e => Except.error e
    | Except.ok dIdx =>
      match createIndexes s.trackingIndexes trackingSpecs with
      | Except.error e => Except.error e
      | Except.ok tIdx =>
        match createIndexes s.notificationsIndexes notificationsSpecs with
        | Except.error e => Except.error e
        | Except.ok nIdx =>
          Except.ok
            ({ s with
                usersExists := ensureCollectionFlag s.usersExists,
                deliveriesExists := ensureCollectionFlag s.deliveriesExists,
                trackingExists := ensureCollectionFlag s.trackingExists,
                notificationsExists := ensureCollectionFlag s.notificationsExists,
                usersIndexes := uIdx, deliveriesIndexes := dIdx,
                trackingIndexes := tIdx, notificationsIndexes := nIdx },
             [lu, ld, lt, ln, "✓ Indexes ensured."])

/-- Advance the ObjectId counter past an insert, if one happened. -/
def bump (inserted : Bool) (n : Nat) : Nat := if inserted then n + 1 else n

/-- Lines 64-201: the seed phase, run after provisioning. -/
def seed (now : Int) (s : Store) : Except String (Store × List String) :=
  let r1 := findOneAndUpdateUpsert s.users custFilter (customerDefaults now) s.nextId
  let n1 := bump r1.inserted s.nextId
  let r2 := findOneAndUpdateUpsert r1.coll courFilter (courierDefaults now) n1
  let n2 := bump r2.inserted n1
  match resolveId r1.ret r2.coll custFilter with
  | Except.error e => Except.error e
  | Except.ok customerId =>
    match resolveId r2.ret r2.coll courFilter with
    | Except.error e => Except.error e
    | Except.ok courierId =>
      let r3 := findOneAndUpdateUpsert s.deliveries delFilter
        (deliveryDefaults customerId now) n2
      let n3 := bump r3.inserted n2
      match jsOrDoc r3.ret (findOne r3.coll delFilter) with
      | none => Except.error "TypeError: cannot read _id of null"
      | some delivery =>
        let deliveryId := idOfDoc delivery
        let u1 := updateOneUpsert s.tracking_events tr1Filter (event1 deliveryId now) n3
        let n4 := bump u1.inserted n3
        let u2 := updateOneUpsert u1.coll tr2Filter (event2 deliveryId now) n4
        let n5 := bump u2.inserted n4
        let u3 := updateOneUpsert s.notifications notifFilter
          (notificationDefaults customerId now) n5
        let n6 := bump u3.inserted n5
        Except.ok
          ({ s with
              users := r2.coll, deliveries := r3.coll,
              tracking_events := u2.coll, notifications := u3.coll, nextId := n6 },
           ["✓ Customer _id: " ++ showVal customerId,
            "✓ Courier _id: " ++ showVal courierId,
            "✓ Delivery _id: " ++ showVal deliveryId,
            "✓ Tracking events ensured.",
            "✓ Notification ensured.",
            "✅ Schema initialization + seed complete."])

/-- The whole script (`main`, lines 15-203): provision, then seed. -/
def main (now : Int) (s : Store) : Except String (Store × List String) :=
  match provision s with
  | Except.error e => Except.error e
  | Except.ok (s1, plog) =>
    match seed now s1 with
    | Except.error e => Except.error e
    | Except.ok (s2, slog) => Except.ok (s2, plog ++ slog)

/-- The store produced by a run, forgetting the printed lines. -/
def mainS (now : Int) (s : Store) : Except String Store :=
  match main now s with
  | Except.error e => Except.error e
  | Except.ok (s', _) => Except.ok s'

/-- A sequence of runs, one clock reading per run. -/
def runAll : List Int → Store → Except String Store
  | [], s => Except.ok s
  | t :: ts, s =>
    match mainS t s with
    | Except.error e => Except.error e
    | Except.ok s' => runAll ts s'

/-! ### The state a fresh run produces -/

def customerDoc (t : Int) : Doc := ("_id", Val.prim (Prim.pId 0)) :: customerDefaults t

def courierDoc (t : Int) : Doc := ("_id", Val.prim (Prim.pId 1)) :: courierDefaults t

def seededDelivery (t : Int) : Doc :=
  ("_id", Val.prim (Prim.pId 2)) :: deliveryDefaults (Val.prim (Prim.pId 0)) t

def seededTracking1 (t : Int) : Doc :=
  ("_id", Val.prim (Prim.pId 3)) :: event1 (Val.prim (Prim.pId 2)) t

def seededTracking2 (t : Int) : Doc :=
  ("_id", Val.prim (Prim.pId 4)) :: event2 (Val.prim (Prim.pId 2)) t

def seededNotification (t : Int) : Doc :=
  ("_id", Val.prim (Prim.pId 5)) :: notificationDefaults (Val.prim (Prim.pId 0)) t

/-- The store after one run of the script on an empty database with clock
reading `t`. -/
def freshStore (t : Int) : Store :=
  { usersExists := true, deliveriesExists := true, trackingExists := true
    notificationsExists := true
    users := [customerDoc t, courierDoc t]
    deliveries := [seededDelivery t]
    tracking_events := [seededTracking1 t, seededTracking2 t]
    notifications := [seededNotification t]
    usersIndexes := usersSpecs, deliveriesIndexes := deliveriesSpecs
    trackingIndexes := trackingSpecs, notificationsIndexes := notificationsSpecs
    nextId := 6 }

lemma main_fresh (t : Int) : mainS t emptyStore = Except.ok (freshStore t) := rfl

lemma main_stable (u t : Int) : mainS u (freshStore t) = Except.ok (freshStore t) := rfl

/-! ### Generic lemmas about the modelled primitives -/

lemma findOne_none_iff (coll : List Doc) (f : String × Val) :
    findOne coll f = none ↔ ∀ d ∈ coll, matchesFilter f d = false := by
  unfold findOne
  rw [List.find?_eq_none]
  simp

lemma mem_of_findOne_some {coll : List Doc} {f : String × Val} {d : Doc}
    (h : findOne coll f = some d) : d ∈ coll :=
  List.mem_of_find?_eq_some h

lemma fau_cases (coll : List Doc) (f : String × Val) (defs : Doc) (nid : Nat) :
    (findOne coll f = none ∧
      findOneAndUpdateUpsert coll f defs nid =
        ⟨coll ++ [("_id", Val.prim (Prim.pId nid)) :: defs],
         some (("_id", Val.prim (Prim.pId nid)) :: defs), true⟩) ∨
    (∃ d, findOne coll f = some d ∧
      findOneAndUpdateUpsert coll f defs nid = ⟨coll, some d, false⟩) := by
  unfold findOneAndUpdateUpsert
  cases hf : findOne coll f with
  | none => exact Or.inl ⟨rfl, rfl⟩
  | some d => exact Or.inr ⟨d, rfl, rfl⟩

lemma uo_cases (coll : List Doc) (f : String × Val) (defs : Doc) (nid : Nat) :
    (findOne coll f = none ∧
      updateOneUpsert coll f defs nid =
        ⟨coll ++ [("_id", Val.prim (Prim.pId nid)) :: defs], true⟩) ∨
    (∃ d, findOne coll f = some d ∧
      updateOneUpsert coll f defs nid = ⟨coll, false⟩) := by
  unfold updateOneUpsert
  cases hf : findOne coll f with
  | none => exact Or.inl ⟨rfl, rfl⟩
  | some d => exact Or.inr ⟨d, rfl, rfl⟩

lemma fau_coll_sub {coll : List Doc} (f : String × Val) (defs : Doc) (nid : Nat)
    {d : Doc} (hd : d ∈ coll) : d ∈ (findOneAndUpdateUpsert coll f defs nid).coll := by
  rcases fau_cases coll f defs nid with ⟨_, h⟩ | ⟨d0, _, h⟩ <;> rw [h] <;> simp [hd]

lemma uo_coll_sub {coll : List Doc} (f : String × Val) (defs : Doc) (nid : Nat)
    {d : Doc} (hd : d ∈ coll) : d ∈ (updateOneUpsert coll f defs nid).coll := by
  rcases uo_cases coll f defs nid with ⟨_, h⟩ | ⟨d0, _, h⟩ <;> rw [h] <;> simp [hd]

lemma fau_coll_mem {coll : List Doc} {f : String × Val} {defs : Doc} {nid : Nat}
    {d : Doc} (hd : d ∈ (findOneAndUpdateUpsert coll f defs nid).coll) :
    d ∈ coll ∨ d = ("_id", Val.prim (Prim.pId nid)) :: defs := by
  rcases fau_cases coll f defs nid with ⟨_, h⟩ | ⟨d0, _, h⟩ <;> rw [h] at hd
  · rcases List.mem_append.mp hd with h1 | h1
    · exact Or.inl h1
    · exact Or.inr (List.mem_singleton.mp h1)
  · exact Or.inl hd

lemma uo_coll_mem {coll : List Doc} {f : String × Val} {defs : Doc} {nid : Nat}
    {d : Doc} (hd : d ∈ (updateOneUpsert coll f defs nid).coll) :
    d ∈ coll ∨ d = ("_id", Val.prim (Prim.pId nid)) :: defs := by
  rcases uo_cases coll f defs nid with ⟨_, h⟩ | ⟨d0, _, h⟩ <;> rw [h] at hd
  · rcases List.mem_append.mp hd with h1 | h1
    · exact Or.inl h1
    · exact Or.inr (List.mem_singleton.mp h1)
  · exact Or.inl hd

lemma fau_ret_cases {coll : List Doc} {f : String × Val} {defs : Doc} {nid : Nat}
    {d : Doc} (hd : (findOneAndUpdateUpsert coll f defs nid).ret = some d) :
    d ∈ coll ∨ d = ("_id", Val.prim (Prim.pId nid)) :: defs := by
  rcases fau_cases coll f defs nid with ⟨_, h⟩ | ⟨d0, hf, h⟩ <;> rw [h] at hd <;>
    simp only [Option.some.injEq] at hd
  · exact Or.inr hd.symm
  · exact Or.inl (hd ▸ mem_of_findOne_some hf)

lemma createIndex_ok_mem {idxs idxs' : List IndexSpec} {spec : IndexSpec}
    (h : createIndex idxs spec = Except.ok idxs') : spec ∈ idxs' := by
  unfold createIndex at h
  cases hf : idxs.find? (fun i => i.name = spec.name) with
  | some ex =>
    rw [hf] at h
    by_cases hex : ex = spec
    · simp only [hex, if_pos rfl] at h
      cases h
      exact hex ▸ List.mem_of_find?_eq_some hf
    · simp [hex] at h
  | none =>
    rw [hf] at h
    cases hg : idxs.find? (fun i => i.keys = spec.keys) with
    | some _ => rw [hg] at h; cases h
    | none =>
      rw [hg] at h
      cases h
      simp

lemma createIndex_ok_mono {idxs idxs' : List IndexSpec} {spec : IndexSpec}
    (h : createIndex idxs spec = Except.ok idxs') : ∀ i ∈ idxs, i ∈ idxs' := by
  unfold createIndex at h
  cases hf : idxs.find? (fun i => i.name = spec.name) with
  | some ex =>
    rw [hf] at h
    by_cases hex : ex = spec
    · simp only [hex, if_pos rfl] at h
      cases h
      exact fun i hi => hi
    · simp [hex] at h
  | none =>
    rw [hf] at h
    cases hg : idxs.find? (fun i => i.keys = spec.keys) with
    | some _ => rw [hg] at h; cases h
    | none =>
      rw [hg] at h
      cases h
      intro i hi
      simp [hi]

lemma createIndexes_ok_mono (specs idxs idxs' : List IndexSpec)
    (h : createIndexes idxs specs = Except.ok idxs') : ∀ i ∈ idxs, i ∈ idxs' := by
  induction specs generalizing idxs with
  | nil =>
    unfold createIndexes at h
    cases h
    exact fun i hi => hi
  | cons a rest ih =>
    unfold createIndexes at h
    cases hc : createIndex idxs a with
    | error e => rw [hc] at h; cases h
    | ok idxs1 =>
      rw [hc] at h
      exact fun i hi => ih idxs1 h i (createIndex_ok_mono hc i hi)

lemma createIndexes_ok_mem (specs idxs idxs' : List IndexSpec)
    (h : createIndexes idxs specs = Except.ok idxs') : ∀ sp ∈ specs, sp ∈ idxs' := by
  induction specs generalizing idxs with
  | nil => intro sp hsp; cases hsp
  | cons a rest ih =>
    intro sp hsp
    unfold createIndexes at h
    cases hc : createIndex idxs a with
    | error e => rw [hc] at h; cases h
    | ok idxs1 =>
      rw [hc] at h
      rcases List.mem_cons.mp hsp with h1 | h1
      · subst h1
        exact createIndexes_ok_mono rest idxs1 idxs' h _ (createIndex_ok_mem hc)
      · exact ih idxs1 h sp h1

/-! ### Decomposition of a successful run -/

lemma provision_ok {s s1 : Store} {l : List String}
    (h : provision s = Except.ok (s1, l)) :
    s1.users = s.users ∧ s1.deliveries = s.deliveries ∧
    s1.tracking_events = s.tracking_events ∧ s1.notifications = s.notifications ∧
    s1.nextId = s.nextId ∧
    createIndexes s.usersIndexes usersSpecs = Except.ok s1.usersIndexes ∧
    createIndexes s.deliveriesIndexes deliveriesSpecs = Except.ok s1.deliveriesIndexes ∧
    createIndexes s.trackingIndexes trackingSpecs = Except.ok s1.trackingIndexes ∧
    createIndexes s.notificationsIndexes notificationsSpecs = Except.ok s1.notificationsIndexes := by
  unfold provision at h
  cases hu : createIndexes s.usersIndexes usersSpecs with
  | error e => rw [hu] at h; simp at h
  | ok uIdx =>
  rw [hu] at h
  cases hd : createIndexes s.deliveriesIndexes deliveriesSpecs with
  | error e => rw [hd] at h; simp at h
  | ok dIdx =>
  rw [hd] at h
  cases ht : createIndexes s.trackingIndexes trackingSpecs with
  | error e => rw [ht] at h; simp at h
  | ok tIdx =>
  rw [ht] at h
  cases hn : createIndexes s.notificationsIndexes notificationsSpecs with
  | error e => rw [hn] at h; simp at h
  | ok nIdx =>
  rw [hn] at h
  simp only [Except.ok.injEq, Prod.mk.injEq] at h
  obtain ⟨hs, -⟩ := h
  subst hs
  exact ⟨rfl, rfl, rfl, rfl, rfl, rfl, rfl, rfl, rfl⟩

lemma main_ok_split {t : Int} {s s' : Store} (h : mainS t s = Except.ok s') :
    ∃ s1 l1 l2, provision s = Except.ok (s1, l1) ∧ seed t s1 = Except.ok (s', l2) := by
  unfold mainS main at h
  cases hp : provision s with
  | error e => rw [hp] at h; simp at h
  | ok p =>
  obtain ⟨s1, l1⟩ := p
  rw [hp] at h
  simp only at h
  cases hs : seed t s1 with
  | error e => rw [hs] at h; simp at h
  | ok q =>
  obtain ⟨s2, l2⟩ := q
  rw [hs] at h
  simp only [Except.ok.injEq] at h
  exact ⟨s1, l1, l2, rfl, h ▸ hs⟩

lemma seed_ok_struct {now : Int} {s s' : Store} {log : List String}
    (h : seed now s = Except.ok (s', log)) :
    ∃ (n1 n2 n3 n4 n5 : Nat) (customerId courierId : Val) (delivery : Doc)
      (r1 r2 r3 : FAUResult) (u1 u2 u3 : UOResult),
      r1 = findOneAndUpdateUpsert s.users custFilter (customerDefaults now) s.nextId ∧
      r2 = findOneAndUpdateUpsert r1.coll courFilter (courierDefaults now) n1 ∧
      resolveId r1.ret r2.coll custFilter = Except.ok customerId ∧
      resolveId r2.ret r2.coll courFilter = Except.ok courierId ∧
      r3 = findOneAndUpdateUpsert s.deliveries delFilter (deliveryDefaults customerId now) n2 ∧
      jsOrDoc r3.ret (findOne r3.coll delFilter) = some delivery ∧
      u1 = updateOneUpsert s.tracking_events tr1Filter (event1 (idOfDoc delivery) now) n3 ∧
      u2 = updateOneUpsert u1.coll tr2Filter (event2 (idOfDoc delivery) now) n4 ∧
      u3 = updateOneUpsert s.notifications notifFilter (notificationDefaults customerId now) n5 ∧
      s'.users = r2.coll ∧ s'.deliveries = r3.coll ∧
      s'.tracking_events = u2.coll ∧ s'.notifications = u3.coll ∧
      s'.usersIndexes = s.usersIndexes ∧ s'.deliveriesIndexes = s.deliveriesIndexes ∧
      s'.trackingIndexes = s.trackingIndexes ∧ s'.notificationsIndexes = s.notificationsIndexes := by
  unfold seed at h
  simp only [] at h
  split at h
  · simp at h
  · rename_i customerId hres1
    split at h
    · simp at h
    · rename_i courierId hres2
      split at h
      · simp at h
      · rename_i delivery hdel
        simp only [Except.ok.injEq, Prod.mk.injEq] at h
        obtain ⟨hs, -⟩ := h
        subst hs
        exact ⟨_, _, _, _, _, customerId, courierId, delivery, _, _, _, _, _, _,
               rfl, rfl, hres1, hres2, rfl, hdel, rfl, rfl, rfl,
               rfl, rfl, rfl, rfl, rfl, rfl, rfl, rfl⟩

/-! ### Claim-specific auxiliary definitions -/

/-- Number of user documents with the given role. -/
def countRole (r : String) (coll : List Doc) : Nat :=
  coll.countP (fun d => decide (lookupField d "role" = some (strV r)))

/-- The progress lines printed by a run on an empty database. -/
def freshRunLog : List String :=
  ["✓ Created collection: users", "✓ Created collection: deliveries",
   "✓ Created collection: tracking_events", "✓ Created collection: notifications",
   "✓ Indexes ensured.",
   "✓ Customer _id: " ++ showVal (Val.prim (Prim.pId 0)),
   "✓ Courier _id: " ++ showVal (Val.prim (Prim.pId 1)),
   "✓ Delivery _id: " ++ showVal (Val.prim (Prim.pId 2)),
   "✓ Tracking events ensured.", "✓ Notification ensured.",
   "✅ Schema initialization + seed complete."]

lemma main_fresh_full (t : Int) :
    main t emptyStore = Except.ok (freshStore t, freshRunLog) := rfl

lemma runAll_stable (t : Int) (ts : List Int) :
    runAll ts (freshStore t) = Except.ok (freshStore t) := by
  induction ts with
  | nil => rfl
  | cons u ts ih => simp only [runAll, main_stable]; exact ih

/-! ### C1 — idempotence of the provision-and-seed sequence -/

/-- C1: running the full provision-and-seed sequence N times (N ≥ 1, one
clock reading per run) against an initially empty store yields exactly the
state one run produces — 1 customer user, 1 courier user, 1 delivery, 2
tracking events and 1 notification, every document's fields included — and
every further run leaves that state identical. -/
theorem seed_idempotent_nruns (t : Int) (ts : List Int) :
    runAll (t :: ts) emptyStore = Except.ok (freshStore t) ∧
    runAll [t] emptyStore = Except.ok (freshStore t) ∧
    (∀ more : List Int, runAll more (freshStore t) = Except.ok (freshStore t)) ∧
    countRole "customer" (freshStore t).users = 1 ∧
    countRole "courier" (freshStore t).users = 1 ∧
    (freshStore t).users.length = 2 ∧
    (freshStore t).deliveries.length = 1 ∧
    (freshStore t).tracking_events.length = 2 ∧
    (freshStore t).notifications.length = 1 := by
  refine ⟨?_, rfl, runAll_stable t, rfl, rfl, rfl, rfl, rfl, rfl⟩
  simp only [runAll, main_fresh]
  exact runAll_stable t ts

/-! ### C5 — index provisioning -/

/-- C5: after provisioning, each collection carries exactly the named
indexes of the spec's table — `users_email_unique` unique ascending on
`email`; `deliveries_customerId`, `deliveries_courierId`,
`deliveries_status` ascending; `deliveries_createdAt_desc` descending;
`tracking_deliveryId_createdAt_desc` on (`deliveryId` asc, `createdAt`
desc); `notifications_userId_read` on (`userId` asc, `read` asc) — and
re-provisioning with identical specs is a no-op creating no duplicate or
renamed index. -/
theorem index_provisioning_exact (t u : Int) :
    mainS t emptyStore = Except.ok (freshStore t) ∧
    (freshStore t).usersIndexes = [⟨"users_email_unique", [("email", 1)], true⟩] ∧
    (freshStore t).deliveriesIndexes =
      [⟨"deliveries_customerId", [("customerId", 1)], false⟩,
       ⟨"deliveries_courierId", [("courierId", 1)], false⟩,
       ⟨"deliveries_status", [("status", 1)], false⟩,
       ⟨"deliveries_createdAt_desc", [("createdAt", -1)], false⟩] ∧
    (freshStore t).trackingIndexes =
      [⟨"tracking_deliveryId_createdAt_desc", [("deliveryId", 1), ("createdAt", -1)], false⟩] ∧
    (freshStore t).notificationsIndexes =
      [⟨"notifications_userId_read", [("userId", 1), ("read", 1)], false⟩] ∧
    mainS u (freshStore t) = Except.ok (freshStore t) := by
  exact ⟨rfl, rfl, rfl, rfl, rfl, rfl⟩

/-! ### C6 — dependency order and id threading -/

/-- C6: the seed engine runs its steps in dependency order — customer user,
courier user, delivery, the two tracking events, notification, as the
printed progress lines witness — threading the customer's generated id into
the delivery's `customerId` and the notification's `userId`, threading the
delivery's id into both tracking events' `deliveryId`, and creating the
delivery with `courierId` null. -/
theorem seed_dependency_order (t : Int) :
    main t emptyStore = Except.ok (freshStore t, freshRunLog) ∧
    freshRunLog =
      ["✓ Created collection: users", "✓ Created collection: deliveries",
       "✓ Created collection: tracking_events", "✓ Created collection: notifications",
       "✓ Indexes ensured.",
       "✓ Customer _id: ObjectId(0)", "✓ Courier _id: ObjectId(1)",
       "✓ Delivery _id: ObjectId(2)",
       "✓ Tracking events ensured.", "✓ Notification ensured.",
       "✅ Schema initialization + seed complete."] ∧
    (freshStore t).users = [customerDoc t, courierDoc t] ∧
    lookupField (customerDoc t) "_id" = some (Val.prim (Prim.pId 0)) ∧
    lookupField (courierDoc t) "_id" = some (Val.prim (Prim.pId 1)) ∧
    (freshStore t).deliveries = [seededDelivery t] ∧
    lookupField (seededDelivery t) "_id" = some (Val.prim (Prim.pId 2)) ∧
    lookupField (seededDelivery t) "customerId" = some (Val.prim (Prim.pId 0)) ∧
    lookupField (seededDelivery t) "courierId" = some (Val.prim Prim.pNull) ∧
    (freshStore t).tracking_events = [seededTracking1 t, seededTracking2 t] ∧
    lookupField (seededTracking1 t) "deliveryId" = some (Val.prim (Prim.pId 2)) ∧
    lookupField (seededTracking2 t) "deliveryId" = some (Val.prim (Prim.pId 2)) ∧
    (freshStore t).notifications = [seededNotification t] ∧
    lookupField (seededNotification t) "userId" = some (Val.prim (Prim.pId 0)) := by
  exact ⟨main_fresh_full t, rfl, rfl, rfl, rfl, rfl, rfl, rfl, rfl, rfl, rfl, rfl, rfl, rfl⟩

/-! ### C9 — the single clock value -/

/-- C9: in a single fresh run every timestamp derives from the one `now`
captured at start: both users, the delivery and the notification share that
`createdAt`; the delivery's `updatedAt` equals its `createdAt`; the two
tracking events are stamped exactly 2 minutes and 1 minute before `now`,
hence strictly before the delivery's `createdAt`. -/
theorem timestamps_single_clock (t : Int) :
    mainS t emptyStore = Except.ok (freshStore t) ∧
    lookupField (customerDoc t) "createdAt" = some (Val.prim (Prim.pDate t)) ∧
    lookupField (courierDoc t) "createdAt" = some (Val.prim (Prim.pDate t)) ∧
    lookupField (seededDelivery t) "createdAt" = some (Val.prim (Prim.pDate t)) ∧
    lookupField (seededDelivery t) "updatedAt" = lookupField (seededDelivery t) "createdAt" ∧
    lookupField (seededNotification t) "createdAt" = some (Val.prim (Prim.pDate t)) ∧
    lookupField (seededTracking1 t) "createdAt" =
      some (Val.prim (Prim.pDate (t - 2 * 60 * 1000))) ∧
    lookupField (seededTracking2 t) "createdAt" =
      some (Val.prim (Prim.pDate (t - 1 * 60 * 1000))) ∧
    t - 2 * 60 * 1000 < t ∧ t - 1 * 60 * 1000 < t := by
  refine ⟨rfl, rfl, rfl, rfl, rfl, rfl, rfl, rfl, ?_, ?_⟩ <;> omega

/-! ### C8 — tracking event ordering under the compound index -/

/-- The total preorder induced by the `tracking_deliveryId_createdAt_desc`
index: `deliveryId` ascending, ties broken by `createdAt` descending. -/
def trackingIdxLe (d e : Doc) : Bool :=
  match lookupField d "deliveryId", lookupField e "deliveryId" with
  | some (Val.prim (Prim.pId a)), some (Val.prim (Prim.pId b)) =>
    if a = b then
      match lookupField d "createdAt", lookupField e "createdAt" with
      | some (Val.prim (Prim.pDate x)), some (Val.prim (Prim.pDate y)) => decide (y ≤ x)
      | _, _ => true
    else decide (a ≤ b)
  | _, _ => true

def insertSorted (le : Doc → Doc → Bool) (d : Doc) : List Doc → List Doc
  | [] => [d]
  | e :: rest => if le d e then d :: e :: rest else e :: insertSorted le d rest

/-- Insertion sort of a collection under a document order. -/
def sortDocs (le : Doc → Doc → Bool) (coll : List Doc) : List Doc :=
  coll.foldr (insertSorted le) []

lemma trackingIdxLe_12 (t : Int) :
    trackingIdxLe (seededTracking1 t) (seededTracking2 t) =
      decide (t - 1 * 60 * 1000 ≤ t - 2 * 60 * 1000) := rfl

/-- C8: of the two seeded tracking events, `seed_tracking_2` is stamped
strictly later than `seed_tracking_1`, and sorting the delivery's tracking
events by the compound index (`deliveryId` ascending, `createdAt`
descending) yields `seed_tracking_2` first. -/
theorem tracking_events_order (t : Int) :
    mainS t emptyStore = Except.ok (freshStore t) ∧
    lookupField (seededTracking1 t) "createdAt" =
      some (Val.prim (Prim.pDate (t - 2 * 60 * 1000))) ∧
    lookupField (seededTracking2 t) "createdAt" =
      some (Val.prim (Prim.pDate (t - 1 * 60 * 1000))) ∧
    t - 2 * 60 * 1000 < t - 1 * 60 * 1000 ∧
    sortDocs trackingIdxLe (freshStore t).tracking_events =
      [seededTracking2 t, seededTracking1 t] := by
  refine ⟨rfl, rfl, rfl, by omega, ?_⟩
  have h12 : trackingIdxLe (seededTracking1 t) (seededTracking2 t) = false := by
    rw [trackingIdxLe_12]
    simp only [decide_eq_false_iff_not]
    omega
  show insertSorted trackingIdxLe (seededTracking1 t)
      (insertSorted trackingIdxLe (seededTracking2 t) []) =
    [seededTracking2 t, seededTracking1 t]
  simp [insertSorted, h12]

/-! ### C10 — the courier's id is never referenced -/

/-- Does any field of a document (nested objects included) hold the
ObjectId `n`?  Nested objects cannot hold ids in this model's `Prim`-valued
fields, but are checked all the same. -/
def valMentions (n : Nat) : Val → Bool
  | Val.prim p => decide (p = Prim.pId n)
  | Val.obj fs => fs.any (fun q => decide (q.2 = Prim.pId n))

def mentionsId (n : Nat) (d : Doc) : Bool :=
  d.any (fun p => valMentions n p.2)

/-- C10: after a fresh run the courier user's id (`ObjectId(1)`) appears in
no other seeded document: the delivery's `courierId` is null, the
notification's `userId` is the customer's id, and no field of the customer,
delivery, tracking-event or notification documents mentions the courier's
id. -/
theorem courier_never_referenced (t : Int) :
    mainS t emptyStore = Except.ok (freshStore t) ∧
    lookupField (courierDoc t) "_id" = some (Val.prim (Prim.pId 1)) ∧
    (freshStore t).users = [customerDoc t, courierDoc t] ∧
    (freshStore t).deliveries = [seededDelivery t] ∧
    (freshStore t).tracking_events = [seededTracking1 t, seededTracking2 t] ∧
    (freshStore t).notifications = [seededNotification t] ∧
    mentionsId 1 (customerDoc t) = false ∧
    mentionsId 1 (seededDelivery t) = false ∧
    mentionsId 1 (seededTracking1 t) = false ∧
    mentionsId 1 (seededTracking2 t) = false ∧
    mentionsId 1 (seededNotification t) = false ∧
    lookupField (seededDelivery t) "courierId" = some (Val.prim Prim.pNull) ∧
    lookupField (seededNotification t) "userId" = some (Val.prim (Prim.pId 0)) := by
  exact ⟨rfl, rfl, rfl, rfl, rfl, rfl, rfl, rfl, rfl, rfl, rfl, rfl, rfl⟩

/-! ### C2 — an existing keyed document is never touched -/

/-- Every document already matching the identifying key of one of the six
find-or-create steps is still present, with every field unchanged, after a
successful rerun. -/
def preservesMatchingDocs (s s' : Store) : Prop :=
  (∀ d, d ∈ s.users → matchesFilter custFilter d = true → d ∈ s'.users) ∧
  (∀ d, d ∈ s.users → matchesFilter courFilter d = true → d ∈ s'.users) ∧
  (∀ d, d ∈ s.deliveries → matchesFilter delFilter d = true → d ∈ s'.deliveries) ∧
  (∀ d, d ∈ s.tracking_events → matchesFilter tr1Filter d = true → d ∈ s'.tracking_events) ∧
  (∀ d, d ∈ s.tracking_events → matchesFilter tr2Filter d = true → d ∈ s'.tracking_events) ∧
  (∀ d, d ∈ s.notifications → matchesFilter notifFilter d = true → d ∈ s'.notifications)

/-- C2: whatever fields a document matching a step's identifying key
carries — externally mutated ones included — a successful run leaves that
document intact: the `$setOnInsert` defaults are applied only on insert,
never to an existing document. -/
theorem rerun_never_clobbers (t : Int) (s s' : Store)
    (h : mainS t s = Except.ok s') : preservesMatchingDocs s s' := by
  obtain ⟨s1, l1, l2, hp, hs⟩ := main_ok_split h
  obtain ⟨hpu, hpd, hpt, hpn, -, -, -, -, -⟩ := provision_ok hp
  obtain ⟨n1, n2, n3, n4, n5, cId, oId, dlv, r1, r2, r3, u1, u2, u3,
    hr1, hr2, -, -, hr3, -, hu1, hu2, hu3, hsu, hsd, hst, hsn, -, -, -, -⟩ :=
    seed_ok_struct hs
  refine ⟨?_, ?_, ?_, ?_, ?_, ?_⟩ <;> intro d hmem _
  · rw [hsu, hr2]
    apply fau_coll_sub
    rw [hr1]
    apply fau_coll_sub
    rw [hpu]
    exact hmem
  · rw [hsu, hr2]
    apply fau_coll_sub
    rw [hr1]
    apply fau_coll_sub
    rw [hpu]
    exact hmem
  · rw [hsd, hr3]
    apply fau_coll_sub
    rw [hpd]
    exact hmem
  · rw [hst, hu2]
    apply uo_coll_sub
    rw [hu1]
    apply uo_coll_sub
    rw [hpt]
    exact hmem
  · rw [hst, hu2]
    apply uo_coll_sub
    rw [hu1]
    apply uo_coll_sub
    rw [hpt]
    exact hmem
  · rw [hsn, hu3]
    apply uo_coll_sub
    rw [hpn]
    exact hmem

/-- A delivery document an external actor has mutated: status moved from
"requested" to "in_transit", a courier assigned. -/
def mutatedDelivery : Doc :=
  [("_id", Val.prim (Prim.pId 2)),
   ("seedMarker", strV "seed_delivery_1"),
   ("customerId", Val.prim (Prim.pId 0)),
   ("courierId", Val.prim (Prim.pId 1)),
   ("pickupAddress", pickupAddressVal),
   ("dropoffAddress", dropoffAddressVal),
   ("packageDetails", packageDetailsVal),
   ("price", Val.prim (Prim.pNum 19.99)),
   ("status", strV "in_transit"),
   ("createdAt", Val.prim (Prim.pDate 0)),
   ("updatedAt", Val.prim (Prim.pDate 0))]

/-- A seeded store whose delivery was mutated externally between runs. -/
def mutStore : Store := { freshStore 0 with deliveries := [mutatedDelivery] }

/-- Witness for C2: rerunning at a later clock over the externally mutated
store leaves it identical, and in particular the mutated delivery — status
"in_transit" — matches its key and survives untouched. -/
theorem rerun_never_clobbers_witness :
    mainS 5 mutStore = Except.ok mutStore ∧
    lookupField mutatedDelivery "status" = some (strV "in_transit") ∧
    preservesMatchingDocs mutStore mutStore :=
  ⟨rfl, rfl, rerun_never_clobbers 5 mutStore mutStore rfl⟩

/-! ### C4 — field names of the seeded user documents -/

def userFieldNames : List String :=
  ["_id", "email", "password_hash", "role", "name", "phone", "createdAt"]

/-- C4 (amended): every user document the engine creates carries exactly
the fields identifier, `email`, `password_hash` (not `passwordHash` as the
specification writes), `role` — one of customer/courier — `name`, `phone`,
`createdAt`. -/
theorem user_documents_field_names (t : Int) (s s' : Store)
    (h : mainS t s = Except.ok s') :
    ∀ d, d ∈ s'.users → d ∉ s.users →
      d.map Prod.fst = userFieldNames ∧
      (lookupField d "role" = some (strV "customer") ∨
       lookupField d "role" = some (strV "courier")) := by
  obtain ⟨s1, l1, l2, hp, hs⟩ := main_ok_split h
  obtain ⟨hpu, -, -, -, -, -, -, -, -⟩ := provision_ok hp
  obtain ⟨n1, n2, n3, n4, n5, cId, oId, dlv, r1, r2, r3, u1, u2, u3,
    hr1, hr2, -, -, -, -, -, -, -, hsu, -, -, -, -, -, -, -⟩ := seed_ok_struct hs
  intro d hd hnd
  rw [hsu, hr2] at hd
  rcases fau_coll_mem hd with hd1 | hd1
  · rw [hr1] at hd1
    rcases fau_coll_mem hd1 with hd2 | hd2
    · exact absurd (hpu ▸ hd2) hnd
    · subst hd2
      exact ⟨rfl, Or.inl rfl⟩
  · subst hd1
    exact ⟨rfl, Or.inr rfl⟩

/-- Counterexample to C4 as stated: the engine's user documents name the
hash field `password_hash`; no field is named `passwordHash`. -/
theorem user_field_names_spec_mismatch :
    mainS 0 emptyStore = Except.ok (freshStore 0) ∧
    List.map (List.map Prod.fst) (freshStore 0).users = [userFieldNames, userFieldNames] ∧
    "passwordHash" ∉ userFieldNames ∧
    "password_hash" ∈ userFieldNames :=
  ⟨rfl, rfl, by decide, by decide⟩

/-- Witness for C4: the customer document created by a fresh run has
exactly the amended field-name list and the customer role. -/
theorem user_documents_field_names_witness :
    mainS 0 emptyStore = Except.ok (freshStore 0) ∧
    customerDoc 0 ∈ (freshStore 0).users ∧
    customerDoc 0 ∉ emptyStore.users ∧
    ((customerDoc 0).map Prod.fst = userFieldNames ∧
     (lookupField (customerDoc 0) "role" = some (strV "customer") ∨
      lookupField (customerDoc 0) "role" = some (strV "courier"))) :=
  ⟨rfl, by decide, by decide,
   user_documents_field_names 0 emptyStore (freshStore 0) rfl
     (customerDoc 0) (by decide) (by decide)⟩

/-! ### C7 — global uniqueness of user emails -/

def emailOf (d : Doc) : Option Val := lookupField d "email"

/-- `d` carries an email equal to `e`'s email value. -/
def sharesEmail (d e : Doc) : Bool := (emailOf d).isSome && decide (emailOf d = emailOf e)

/-- No two documents of the collection share an email value. -/
def emailsUnique : List Doc → Bool
  | [] => true
  | d :: rest => rest.all (fun e => !(sharesEmail d e)) && emailsUnique rest

lemma emailsUnique_append (xs : List Doc) (d : Doc)
    (hu : emailsUnique xs = true)
    (hnew : ∀ e ∈ xs, sharesEmail e d = false) :
    emailsUnique (xs ++ [d]) = true := by
  induction xs with
  | nil => rfl
  | cons x xs ih =>
    simp only [emailsUnique, Bool.and_eq_true, List.all_eq_true] at hu
    obtain ⟨hx, hxs⟩ := hu
    have hxd : sharesEmail x d = false := hnew x (List.mem_cons_self x xs)
    simp only [List.cons_append, emailsUnique, Bool.and_eq_true, List.all_eq_true]
    refine ⟨?_, ih hxs (fun e he => hnew e (List.mem_cons_of_mem x he))⟩
    intro e he
    rcases List.mem_append.mp he with h1 | h1
    · exact hx e h1
    · rw [List.mem_singleton.mp h1]
      simp [hxd]

lemma fau_preserves_emailsUnique (coll : List Doc) (em : String) (defs : Doc) (nid : Nat)
    (hdef : lookupField defs "email" = some (strV em))
    (hu : emailsUnique coll = true) :
    emailsUnique (findOneAndUpdateUpsert coll ("email", strV em) defs nid).coll = true := by
  rcases fau_cases coll ("email", strV em) defs nid with ⟨hnone, heq⟩ | ⟨d0, -, heq⟩
  · rw [heq]
    apply emailsUnique_append coll _ hu
    intro e he
    have hm : matchesFilter ("email", strV em) e = false :=
      (findOne_none_iff coll _).mp hnone e he
    have hnew : emailOf (("_id", Val.prim (Prim.pId nid)) :: defs) = some (strV em) := by
      simp only [emailOf, lookupField, List.find?]
      simpa [lookupField] using hdef
    unfold sharesEmail
    rw [hnew]
    cases hce : emailOf e with
    | none => simp [hce]
    | some v =>
      have hv : v ≠ strV em := by
        intro hveq
        rw [hveq] at hce
        simp only [matchesFilter, emailOf] at hm hce
        simp [hce] at hm
      simp [hce, hv]
  · rw [heq]
    exact hu

/-- How far the de-duplication key of a unique index fails to tell `d` and
`e` apart: all key fields agree (an absent field indexes as null, so two
absent fields also collide, as in MongoDB). -/
def indexKeyMatches (ix : IndexSpec) (d e : Doc) : Bool :=
  ix.keys.all (fun k => decide (lookupField d k.1 = lookupField e k.1))

/-- The store's insert primitive under unique-index enforcement: an insert
whose unique-index key collides with an existing document is rejected with
a duplicate-key error and nothing is inserted. -/
def insertOne (idxs : List IndexSpec) (coll : List Doc) (d : Doc) :
    Except String (List Doc) :=
  if idxs.any (fun ix => ix.unique && coll.any (fun e => indexKeyMatches ix d e)) then
    Except.error "E11000 duplicate key error"
  else Except.ok (coll ++ [d])

/-- C7: email is globally unique across user documents: a successful run
starting from a store satisfying the invariant preserves it, leaves the
unique email index in place, and under that index inserting a second user
document with an email already present fails with a duplicate-key error
and creates no second document. -/
theorem email_uniqueness_enforced (t : Int) (s s' : Store)
    (hrun : mainS t s = Except.ok s') (hu : emailsUnique s.users = true) :
    emailsUnique s'.users = true ∧
    usersEmailUniqueIdx ∈ s'.usersIndexes ∧
    (∀ d e v, e ∈ s'.users → lookupField e "email" = some v →
      lookupField d "email" = some v →
      insertOne s'.usersIndexes s'.users d = Except.error "E11000 duplicate key error") := by
  obtain ⟨s1, l1, l2, hp, hs⟩ := main_ok_split hrun
  obtain ⟨hpu, -, -, -, -, hciu, -, -, -⟩ := provision_ok hp
  obtain ⟨n1, n2, n3, n4, n5, cId, oId, dlv, r1, r2, r3, u1, u2, u3,
    hr1, hr2, -, -, -, -, -, -, -, hsu, -, -, -, hsiu, -, -, -⟩ := seed_ok_struct hs
  have hmem : usersEmailUniqueIdx ∈ s'.usersIndexes := by
    rw [hsiu]
    exact createIndexes_ok_mem usersSpecs s.usersIndexes s1.usersIndexes hciu
      usersEmailUniqueIdx (by simp [usersSpecs])
  refine ⟨?_, hmem, ?_⟩
  · rw [hsu, hr2, hr1, hpu]
    exact fau_preserves_emailsUnique _ courierEmail _ _ rfl
      (fau_preserves_emailsUnique _ customerEmail _ _ rfl hu)
  · intro d e v he hev hdv
    have hcond : (s'.usersIndexes.any
        (fun ix => ix.unique && s'.users.any (fun e2 => indexKeyMatches ix d e2))) = true := by
      apply List.any_eq_true.mpr
      refine ⟨usersEmailUniqueIdx, hmem, ?_⟩
      simp only [usersEmailUniqueIdx, Bool.and_eq_true]
      refine ⟨by trivial, List.any_eq_true.mpr ⟨e, he, ?_⟩⟩
      simp [indexKeyMatches, hev, hdv]
    simp [insertOne, hcond]

/-- A probe document that repeats the already seeded customer email. -/
def dupEmailProbe : Doc := [("email", strV customerEmail), ("role", strV "customer")]

/-- Witness for C7: on the freshly seeded store the invariant holds, the
unique index is present, and inserting a second document carrying the
seeded customer's email is rejected. -/
theorem email_uniqueness_enforced_witness :
    mainS 0 emptyStore = Except.ok (freshStore 0) ∧
    emailsUnique emptyStore.users = true ∧
    (emailsUnique (freshStore 0).users = true ∧
     usersEmailUniqueIdx ∈ (freshStore 0).usersIndexes) ∧
    insertOne (freshStore 0).usersIndexes (freshStore 0).users dupEmailProbe =
      Except.error "E11000 duplicate key error" := by
  have h := email_uniqueness_enforced 0 emptyStore (freshStore 0) rfl rfl
  exact ⟨rfl, rfl, ⟨h.1, h.2.1⟩,
    h.2.2 dupEmailProbe (customerDoc 0) (strV customerEmail) (by decide) rfl rfl⟩

/-! ### C3 — parent id resolution and child references -/

/-- The document carries an ObjectId-valued `_id`. -/
def hasObjectId (d : Doc) : Bool :=
  match lookupField d "_id" with
  | some (Val.prim (Prim.pId _)) => true
  | _ => false

/-- Every document of the collection carries an ObjectId-valued `_id`. -/
def wfColl (coll : List Doc) : Bool := coll.all hasObjectId

lemma hasObjectId_iff (d : Doc) :
    hasObjectId d = true ↔ ∃ i, lookupField d "_id" = some (Val.prim (Prim.pId i)) := by
  unfold hasObjectId
  cases h : lookupField d "_id" with
  | none => simp
  | some v =>
    cases v with
    | obj fs => simp
    | prim p => cases p <;> simp

lemma resolveId_pid {ret : Option Doc} {coll : List Doc} {f : String × Val} {v : Val}
    (h : resolveId ret coll f = Except.ok v)
    (hret : ∀ d, ret = some d → hasObjectId d = true)
    (hcoll : ∀ d, d ∈ coll → hasObjectId d = true) :
    ∃ i, v = Val.prim (Prim.pId i) := by
  simp only [resolveId] at h
  by_cases htr : truthy (ret.bind fun d => lookupField d "_id") = true
  · rw [if_pos htr] at h
    cases hr : ret with
    | none =>
      rw [hr] at htr
      simp [truthy] at htr
    | some d =>
      obtain ⟨i, hid⟩ := (hasObjectId_iff d).mp (hret d hr)
      rw [hr] at h
      have hb : ((some d).bind fun e => lookupField e "_id") = some (Val.prim (Prim.pId i)) := by
        simpa using hid
      rw [hb] at h
      simp only [Option.getD_some, Except.ok.injEq] at h
      exact ⟨i, h.symm⟩
  · rw [if_neg htr] at h
    unfold fallbackIdLookup at h
    cases hf : findOne coll f with
    | none => rw [hf] at h; cases h
    | some d =>
      rw [hf] at h
      obtain ⟨i, hid⟩ := (hasObjectId_iff d).mp (hcoll d (mem_of_findOne_some hf))
      simp only [Except.ok.injEq] at h
      refine ⟨i, ?_⟩
      rw [← h]
      simp [idOfDoc, hid]

lemma event1_deliveryId_lookup (w dId : Val) (t : Int) :
    lookupField (("_id", w) :: event1 dId t) "deliveryId" = some dId := rfl

lemma event2_deliveryId_lookup (w dId : Val) (t : Int) :
    lookupField (("_id", w) :: event2 dId t) "deliveryId" = some dId := rfl

lemma notification_userId_lookup (w uId : Val) (t : Int) :
    lookupField (("_id", w) :: notificationDefaults uId t) "userId" = some uId := rfl

/-- C3 (amended): when the find-and-modify primitive reports a match
without returning a document, the engine resolves the existing document's
id by a secondary lookup on the same key (the run throwing if even that
lookup finds nothing); and provided every stored user and delivery carries
an ObjectId-valued `_id` — the normal MongoDB situation — no child document
the run inserts has a null or missing parent reference: every inserted
delivery, tracking event and notification carries an ObjectId-valued
`customerId`, `deliveryId`, `userId` respectively.  (Without that proviso
the guarantee fails; see the counterexample.) -/
theorem parent_id_resolution (t : Int) (s s' : Store)
    (hwu : wfColl s.users = true) (hwd : wfColl s.deliveries = true)
    (h : mainS t s = Except.ok s') :
    (∀ (coll : List Doc) (f : String × Val),
      resolveId none coll f = fallbackIdLookup coll f) ∧
    (∀ d, d ∈ s'.deliveries → d ∉ s.deliveries →
      ∃ i, lookupField d "customerId" = some (Val.prim (Prim.pId i))) ∧
    (∀ d, d ∈ s'.tracking_events → d ∉ s.tracking_events →
      ∃ i, lookupField d "deliveryId" = some (Val.prim (Prim.pId i))) ∧
    (∀ d, d ∈ s'.notifications → d ∉ s.notifications →
      ∃ i, lookupField d "userId" = some (Val.prim (Prim.pId i))) := by
  obtain ⟨s1, l1, l2, hp, hs⟩ := main_ok_split h
  obtain ⟨hpu, hpd, hpt, hpn, -, -, -, -, -⟩ := provision_ok hp
  obtain ⟨n1, n2, n3, n4, n5, cId, oId, dlv, r1, r2, r3, u1, u2, u3,
    hr1, hr2, hres1, -, hr3, hdel, hu1, hu2, hu3, hsu, hsd, hst, hsn, -, -, -, -⟩ :=
    seed_ok_struct hs
  have hwu1 : ∀ d ∈ s1.users, hasObjectId d = true := by
    rw [hpu]
    intro d hd
    exact List.all_eq_true.mp hwu d hd
  have hwd1 : ∀ d ∈ s1.deliveries, hasObjectId d = true := by
    rw [hpd]
    intro d hd
    exact List.all_eq_true.mp hwd d hd
  have hretc : ∀ d, r1.ret = some d → hasObjectId d = true := by
    intro d hd
    rw [hr1] at hd
    rcases fau_ret_cases hd with h1 | h1
    · exact hwu1 d h1
    · rw [h1]; rfl
  have hcollc : ∀ d, d ∈ r2.coll → hasObjectId d = true := by
    intro d hd
    rw [hr2] at hd
    rcases fau_coll_mem hd with h1 | h1
    · rw [hr1] at h1
      rcases fau_coll_mem h1 with h2 | h2
      · exact hwu1 d h2
      · rw [h2]; rfl
    · rw [h1]; rfl
  obtain ⟨ic, hic⟩ := resolveId_pid hres1 hretc hcollc
  have hdlv : dlv ∈ s1.deliveries ∨
      dlv = ("_id", Val.prim (Prim.pId n2)) :: deliveryDefaults cId t := by
    rcases fau_cases s1.deliveries delFilter (deliveryDefaults cId t) n2 with
      ⟨-, heq⟩ | ⟨d0, hf0, heq⟩
    · rw [hr3, heq] at hdel
      simp only [jsOrDoc, Option.some.injEq] at hdel
      exact Or.inr hdel.symm
    · rw [hr3, heq] at hdel
      simp only [jsOrDoc, Option.some.injEq] at hdel
      exact Or.inl (hdel ▸ mem_of_findOne_some hf0)
  have hdlvId : ∃ j, idOfDoc dlv = Val.prim (Prim.pId j) := by
    rcases hdlv with h1 | h1
    · obtain ⟨j, hj⟩ := (hasObjectId_iff dlv).mp (hwd1 dlv h1)
      exact ⟨j, by simp [idOfDoc, hj]⟩
    · exact ⟨n2, by rw [h1]; rfl⟩
  obtain ⟨jd, hjd⟩ := hdlvId
  refine ⟨fun coll f => rfl, ?_, ?_, ?_⟩
  · intro d hd hnd
    rw [hsd, hr3] at hd
    rcases fau_coll_mem hd with h1 | h1
    · exact absurd (hpd ▸ h1) hnd
    · rw [h1, hic]
      exact ⟨ic, rfl⟩
  · intro d hd hnd
    rw [hst, hu2] at hd
    rcases uo_coll_mem hd with h1 | h1
    · rw [hu1] at h1
      rcases uo_coll_mem h1 with h2 | h2
      · exact absurd (hpt ▸ h2) hnd
      · rw [h2, event1_deliveryId_lookup, hjd]
        exact ⟨jd, rfl⟩
    · rw [h1, event2_deliveryId_lookup, hjd]
      exact ⟨jd, rfl⟩
  · intro d hd hnd
    rw [hsn, hu3] at hd
    rcases uo_coll_mem hd with h1 | h1
    · exact absurd (hpn ▸ h1) hnd
    · rw [h1, notification_userId_lookup, hic]
      exact ⟨ic, rfl⟩

/-- A store in which an external actor inserted a customer user document
whose `_id` is null — a value MongoDB accepts for `_id`. -/
def badStore : Store :=
  { emptyStore with
      users := [[("_id", Val.prim Prim.pNull), ("email", strV customerEmail)]] }

/-- The `customerId` field of every delivery a run leaves behind. -/
def deliveriesCustomerIds (r : Except String Store) : List (Option Val) :=
  match r with
  | Except.error _ => []
  | Except.ok s => s.deliveries.map (fun d => lookupField d "customerId")

/-- Counterexample to C3 as stated: on a store holding a user with `_id`
null and the seeded customer email, the run completes without aborting and
inserts the seeded delivery with `customerId` null — a child document with
a null required parent reference. -/
theorem null_parent_counterexample :
    badStore.deliveries = [] ∧
    deliveriesCustomerIds (mainS 0 badStore) = [some (Val.prim Prim.pNull)] :=
  ⟨rfl, rfl⟩

/-- Witness for C3 (amended): the empty store is well-formed and a run on
it yields only children with ObjectId-valued parent references. -/
theorem parent_id_resolution_witness :
    wfColl emptyStore.users = true ∧ wfColl emptyStore.deliveries = true ∧
    mainS 0 emptyStore = Except.ok (freshStore 0) ∧
    ((∀ (coll : List Doc) (f : String × Val),
       resolveId none coll f = fallbackIdLookup coll f) ∧
     (∀ d, d ∈ (freshStore 0).deliveries → d ∉ emptyStore.deliveries →
       ∃ i, lookupField d "customerId" = some (Val.prim (Prim.pId i))) ∧
     (∀ d, d ∈ (freshStore 0).tracking_events → d ∉ emptyStore.tracking_events →
       ∃ i, lookupField d "deliveryId" = some (Val.prim (Prim.pId i))) ∧
     (∀ d, d ∈ (freshStore 0).notifications → d ∉ emptyStore.notifications →
       ∃ i, lookupField d "userId" = some (Val.prim (Prim.pId i)))) :=
  ⟨rfl, rfl, rfl, parent_id_resolution 0 emptyStore (freshStore 0) rfl rfl rfl⟩

end SeedInit
